import Mathlib

/-!
Shallow embedding of `src/q15_axpy_challenge.c`: a Q15 saturating AXPY
kernel (`y[i] = sat_q15(a[i] + alpha * b[i])`) with a scalar reference
implementation, an RVV vector-length-agnostic implementation, a compile-time
fallback, and a `verify_equal` comparison utility.

Machine integers are modelled as `Int` with explicit wrapping where the C
types could wrap: `wrap16` models the `(int16_t)` narrowing cast, and
`norm32` models a 32-bit signed result, taking a wrapping branch only when
the exact value leaves the `int32_t` range.  Arrays are `List Int`; the C
loops become structurally recursive functions on the remaining iteration
count (for the reference loop) or on a fuel bounding the iteration count
(for the chunked RVV loop, whose chunk size comes from an arbitrary
`vsetvl` oracle).
-/

namespace Q15

/-- Q15 range of a 16-bit signed integer. -/
def inQ15 (v : Int) : Prop := -32768 ≤ v ∧ v ≤ 32767

instance (v : Int) : Decidable (inQ15 v) := by unfold inQ15; infer_instance

/-- Two's-complement narrowing to 16 bits: the `(int16_t)v` cast. -/
def wrap16 (v : Int) : Int := (v + 32768) % 65536 - 32768

/-- Two's-complement wrap to 32 bits. -/
def wrap32 (v : Int) : Int := (v + 2147483648) % 4294967296 - 2147483648

/-- A value produced by 32-bit signed arithmetic: exact when it fits in
`int32_t`, otherwise the wrapping (overflow) branch is taken. -/
def norm32 (v : Int) : Int :=
  if -2147483648 ≤ v ∧ v ≤ 2147483647 then v else wrap32 v

/-- `sat_q15_scalar` from the C source: clamp a 32-bit value to the Q15
range, then narrow to 16 bits. -/
def sat_q15_scalar (v : Int) : Int :=
  if v > 32767 then 32767
  else if v < -32768 then -32768
  else wrap16 v

/-- Body of the `q15_axpy_ref` loop at index `i`:
`acc = (int32_t)a[i] + (int32_t)alpha * (int32_t)b[i]; y[i] = sat_q15_scalar(acc)`. -/
def refElem (a b : List Int) (alpha : Int) (i : Nat) : Int :=
  sat_q15_scalar (norm32 (a.getD i 0 + alpha * b.getD i 0))

/-- The `q15_axpy_ref` loop, running for `k` more iterations starting at
index `i` (so `k` plays the role of `n - i`). -/
def q15_axpy_ref_loop (a b : List Int) (alpha : Int) (y : List Int) (i : Nat) :
    Nat → List Int
  | 0 => y
  | k + 1 =>
      q15_axpy_ref_loop a b alpha (y.set i (refElem a b alpha i)) (i + 1) k

/-- `q15_axpy_ref` from the C source: for `i = 0 .. n-1`,
`y[i] = sat_q15_scalar((int32_t)a[i] + (int32_t)alpha * (int32_t)b[i])`. -/
def q15_axpy_ref (a b y : List Int) (n : Nat) (alpha : Int) : List Int :=
  q15_axpy_ref_loop a b alpha y 0 n

/-- One lane of the RVV loop body: widening multiply `alpha * b[j]`
(`vwmul_vx_i32m2`), widening add `a[j] + 0` (`vwadd_vx_i32m2`), 32-bit add
(`vadd_vv_i32m2`), clamp with `vmin_vx`/`vmax_vx`, and saturating narrow
(`vnclip_wx_i16m1` with shift 0). -/
def rvv_lane (ai bi alpha : Int) : Int :=
  let vprod := alpha * bi
  let va32 := ai + 0
  let vacc := norm32 (va32 + vprod)
  let vmin := min vacc 32767
  let vmax := max vmin (-32768)
  if vmax > 32767 then 32767 else if vmax < -32768 then -32768 else vmax

/-- The stores of one RVV chunk: lanes `j = 0 .. vl-1` write
`y[i+j] = rvv_lane a[i+j] b[i+j] alpha` (`vse16_v_i16m1`). -/
def rvv_store (a b : List Int) (alpha : Int) (i : Nat) (y : List Int) :
    Nat → List Int
  | 0 => y
  | vl + 1 =>
      (rvv_store a b alpha i y vl).set (i + vl)
        (rvv_lane (a.getD (i + vl) 0) (b.getD (i + vl) 0) alpha)

/-- The chunked `while (i < n)` loop of `q15_axpy_rvv`, with `vset m` the
value returned by `vsetvl_e16m1(m)` and a fuel bounding the number of
iterations; `none` means the fuel ran out before the loop finished. -/
def q15_axpy_rvv_loop (vset : Nat → Nat) (a b : List Int) (alpha : Int)
    (n : Nat) (y : List Int) (i : Nat) : Nat → Option (List Int)
  | 0 => if i < n then none else some y
  | fuel + 1 =>
      if i < n then
        q15_axpy_rvv_loop vset a b alpha n
          (rvv_store a b alpha i y (vset (n - i))) (i + vset (n - i)) fuel
      else some y

/-- `q15_axpy_rvv` (vector path) from the C source, run with fuel `n`:
since each chunk handles at least one element, `n` iterations always
suffice when the `vsetvl` oracle makes progress. -/
def q15_axpy_rvv (vset : Nat → Nat) (a b y : List Int) (n : Nat)
    (alpha : Int) : Option (List Int) :=
  q15_axpy_rvv_loop vset a b alpha n y 0 n

/-- The compile-time fallback path of `q15_axpy_rvv`, taken when the build
exposes no RVV capability: the body is a single call to `q15_axpy_ref`. -/
def q15_axpy_rvv_fallback (a b y : List Int) (n : Nat) (alpha : Int) :
    List Int :=
  q15_axpy_ref a b y n alpha

/-- The `verify_equal` loop, carrying the `ok` and `md` accumulators, for
`k` more iterations starting at index `i`. -/
def verify_equal_loop (r t : List Int) (ok md : Int) (i : Nat) :
    Nat → Int × Int
  | 0 => (ok, md)
  | k + 1 =>
      let d0 := r.getD i 0 - t.getD i 0
      let d := if d0 < 0 then -d0 else d0
      let md1 := if d > md then d else md
      let ok1 := if d ≠ 0 then 0 else ok
      verify_equal_loop r t ok1 md1 (i + 1) k

/-- `verify_equal` from the C source: returns `(ok, max_diff)` where `ok`
starts at 1 and is cleared by any nonzero per-index difference, and
`max_diff` starts at 0 and takes the largest absolute difference seen. -/
def verify_equal (r t : List Int) (n : Nat) : Int × Int :=
  verify_equal_loop r t 1 0 0 n

/-- Specification-side clamp: `clamp(v, -32768, 32767)`. -/
def spec_clamp (v : Int) : Int := max (-32768) (min 32767 v)

/-- Specification-side maximum absolute difference over indices
`i, i+1, .., i+k-1` (0 when `k = 0`). -/
def maxDiffFrom (r t : List Int) (i : Nat) : Nat → Int
  | 0 => 0
  | k + 1 => max |r.getD i 0 - t.getD i 0| (maxDiffFrom r t (i + 1) k)

/-! ### Basic lemmas -/

lemma getD_inQ15 (l : List Int) (h : ∀ x ∈ l, inQ15 x) (j : Nat) :
    inQ15 (l.getD j 0) := by
  by_cases hj : j < l.length
  · rw [List.getD_eq_getElem l 0 hj]
    exact h _ (l.getElem_mem hj)
  · rw [List.getD_eq_default l 0 (by omega)]
    exact ⟨by norm_num, by norm_num⟩

lemma mul_q15_bound (x y : Int) (hx : inQ15 x) (hy : inQ15 y) :
    |x * y| ≤ 1073741824 := by
  have hx' : |x| ≤ 32768 := abs_le.mpr ⟨hx.1, by have := hx.2; omega⟩
  have hy' : |y| ≤ 32768 := abs_le.mpr ⟨hy.1, by have := hy.2; omega⟩
  calc |x * y| = |x| * |y| := abs_mul x y
    _ ≤ 32768 * 32768 :=
        mul_le_mul hx' hy' (abs_nonneg y) (by norm_num)
    _ = 1073741824 := by norm_num

lemma acc_bound (ai bi alpha : Int) (ha : inQ15 ai) (hb : inQ15 bi)
    (hal : inQ15 alpha) : |ai + alpha * bi| ≤ 1073774592 := by
  have h1 : |ai| ≤ 32768 := abs_le.mpr ⟨ha.1, by have := ha.2; omega⟩
  have h2 := mul_q15_bound alpha bi hal hb
  calc |ai + alpha * bi| ≤ |ai| + |alpha * bi| := abs_add _ _
    _ ≤ 32768 + 1073741824 := by omega
    _ = 1073774592 := by norm_num

lemma norm32_acc (ai bi alpha : Int) (ha : inQ15 ai) (hb : inQ15 bi)
    (hal : inQ15 alpha) : norm32 (ai + alpha * bi) = ai + alpha * bi := by
  obtain ⟨h1, h2⟩ := abs_le.mp (acc_bound ai bi alpha ha hb hal)
  unfold norm32
  rw [if_pos ⟨by omega, by omega⟩]

lemma sat_norm_eq_clamp (v : Int) (h : |v| ≤ 1073774592) :
    sat_q15_scalar (norm32 v) = spec_clamp v := by
  obtain ⟨h1, h2⟩ := abs_le.mp h
  unfold sat_q15_scalar norm32 wrap16 wrap32 spec_clamp
  simp only [min_def, max_def]
  split_ifs <;> omega

lemma rvv_lane_eq (ai bi alpha : Int) (ha : inQ15 ai) (hb : inQ15 bi)
    (hal : inQ15 alpha) :
    rvv_lane ai bi alpha = sat_q15_scalar (norm32 (ai + alpha * bi)) := by
  obtain ⟨h1, h2⟩ := abs_le.mp (acc_bound ai bi alpha ha hb hal)
  unfold rvv_lane sat_q15_scalar norm32 wrap16 wrap32
  rw [add_zero]
  simp only [min_def, max_def]
  split_ifs <;> omega

lemma getD_set (y : List Int) (m : Nat) (v : Int) (j : Nat) :
    (y.set m v).getD j 0 = if m = j ∧ m < y.length then v else y.getD j 0 := by
  rw [List.getD_eq_getElem?_getD, List.getElem?_set, List.getD_eq_getElem?_getD]
  by_cases h1 : m = j
  · subst h1
    by_cases h2 : m < y.length
    · simp [h2]
    · rw [if_pos rfl, if_neg h2, if_neg (by rintro ⟨h3, h4⟩; exact h2 h4),
        List.getElem?_eq_none (show y.length ≤ m from by omega)]
  · rw [if_neg h1, if_neg (by rintro ⟨h3, h4⟩; exact h1 h3)]

/-! ### Reference loop lemmas -/

lemma ref_loop_succ (a b : List Int) (alpha : Int) (y : List Int) (i k : Nat) :
    q15_axpy_ref_loop a b alpha y i (k + 1)
      = q15_axpy_ref_loop a b alpha (y.set i (refElem a b alpha i)) (i + 1) k :=
  rfl

lemma ref_loop_last (a b : List Int) (alpha : Int) (y : List Int) (i k : Nat) :
    q15_axpy_ref_loop a b alpha y i (k + 1)
      = (q15_axpy_ref_loop a b alpha y i k).set (i + k)
          (refElem a b alpha (i + k)) := by
  induction k generalizing y i with
  | zero => simp [q15_axpy_ref_loop]
  | succ k ih =>
      rw [ref_loop_succ, ih, ref_loop_succ,
        show i + 1 + k = i + (k + 1) from by omega]

lemma ref_loop_add (a b : List Int) (alpha : Int) (y : List Int)
    (i k1 k2 : Nat) :
    q15_axpy_ref_loop a b alpha y i (k1 + k2)
      = q15_axpy_ref_loop a b alpha (q15_axpy_ref_loop a b alpha y i k1)
          (i + k1) k2 := by
  induction k1 generalizing y i with
  | zero => simp [q15_axpy_ref_loop]
  | succ k ih =>
      rw [show k + 1 + k2 = k + k2 + 1 from by omega, ref_loop_succ, ih,
        ref_loop_succ, show i + 1 + k = i + (k + 1) from by omega]

lemma ref_loop_length (a b : List Int) (alpha : Int) (y : List Int)
    (i k : Nat) :
    (q15_axpy_ref_loop a b alpha y i k).length = y.length := by
  induction k generalizing y i with
  | zero => rfl
  | succ k ih => rw [ref_loop_succ, ih, List.length_set]

lemma ref_loop_getD (a b : List Int) (alpha : Int) (y : List Int)
    (i k j : Nat) :
    (q15_axpy_ref_loop a b alpha y i k).getD j 0
      = if i ≤ j ∧ j < i + k ∧ j < y.length then refElem a b alpha j
        else y.getD j 0 := by
  induction k generalizing y i with
  | zero =>
      rw [if_neg]
      · rfl
      · rintro ⟨h1, h2, h3⟩; omega
  | succ k ih =>
      rw [ref_loop_succ, ih, List.length_set, getD_set]
      by_cases hij : i = j
      · subst hij
        split_ifs <;> first | rfl | omega
      · split_ifs <;> first | rfl | omega

/-! ### RVV loop lemmas -/

lemma rvv_store_succ (a b : List Int) (alpha : Int) (i : Nat) (y : List Int)
    (vl : Nat) :
    rvv_store a b alpha i y (vl + 1)
      = (rvv_store a b alpha i y vl).set (i + vl)
          (rvv_lane (a.getD (i + vl) 0) (b.getD (i + vl) 0) alpha) :=
  rfl

lemma rvv_store_eq_ref_loop (a b : List Int) (alpha : Int) (i : Nat)
    (y : List Int) (vl : Nat)
    (ha : ∀ j, inQ15 (a.getD j 0)) (hb : ∀ j, inQ15 (b.getD j 0))
    (hal : inQ15 alpha) :
    rvv_store a b alpha i y vl = q15_axpy_ref_loop a b alpha y i vl := by
  induction vl with
  | zero => rfl
  | succ vl ih =>
      rw [rvv_store_succ, ih, ref_loop_last,
        rvv_lane_eq _ _ _ (ha (i + vl)) (hb (i + vl)) hal]
      rfl

lemma rvv_loop_succ (vset : Nat → Nat) (a b : List Int) (alpha : Int)
    (n : Nat) (y : List Int) (i fuel : Nat) (hi : i < n) :
    q15_axpy_rvv_loop vset a b alpha n y i (fuel + 1)
      = q15_axpy_rvv_loop vset a b alpha n
          (rvv_store a b alpha i y (vset (n - i))) (i + vset (n - i)) fuel := by
  show (if i < n then
      q15_axpy_rvv_loop vset a b alpha n
        (rvv_store a b alpha i y (vset (n - i))) (i + vset (n - i)) fuel
    else some y) = _
  rw [if_pos hi]

lemma rvv_loop_eq_ref_loop (vset : Nat → Nat) (a b : List Int) (alpha : Int)
    (n : Nat) (y : List Int) (i fuel : Nat)
    (hv : ∀ m, 0 < m → 1 ≤ vset m ∧ vset m ≤ m)
    (ha : ∀ j, inQ15 (a.getD j 0)) (hb : ∀ j, inQ15 (b.getD j 0))
    (hal : inQ15 alpha) (hfuel : n - i ≤ fuel) :
    q15_axpy_rvv_loop vset a b alpha n y i fuel
      = some (q15_axpy_ref_loop a b alpha y i (n - i)) := by
  induction fuel generalizing y i with
  | zero =>
      have hi : ¬ i < n := by omega
      unfold q15_axpy_rvv_loop
      rw [if_neg hi, show n - i = 0 from by omega]
      rfl
  | succ fuel ih =>
      by_cases hi : i < n
      · have hvl := hv (n - i) (by omega)
        rw [rvv_loop_succ vset a b alpha n y i fuel hi,
          ih _ _ (by omega),
          rvv_store_eq_ref_loop a b alpha i y _ ha hb hal,
          ← ref_loop_add,
          show vset (n - i) + (n - (i + vset (n - i))) = n - i from by omega]
      · unfold q15_axpy_rvv_loop
        rw [if_neg hi, show n - i = 0 from by omega]
        rfl

/-! ### verify_equal lemmas -/

lemma verify_loop_succ (r t : List Int) (ok md : Int) (i k : Nat) :
    verify_equal_loop r t ok md i (k + 1)
      = verify_equal_loop r t
          (if |r.getD i 0 - t.getD i 0| ≠ 0 then 0 else ok)
          (if |r.getD i 0 - t.getD i 0| > md then |r.getD i 0 - t.getD i 0|
           else md)
          (i + 1) k := by
  show verify_equal_loop r t _ _ (i + 1) k = _
  have habs : (if r.getD i 0 - t.getD i 0 < 0 then -(r.getD i 0 - t.getD i 0)
      else r.getD i 0 - t.getD i 0) = |r.getD i 0 - t.getD i 0| := by
    split_ifs with h
    · exact (abs_of_neg h).symm
    · exact (abs_of_nonneg (by omega)).symm
  rw [habs]

lemma verify_loop_md (r t : List Int) (ok md : Int) (i k : Nat)
    (hmd : 0 ≤ md) :
    (verify_equal_loop r t ok md i k).2 = max md (maxDiffFrom r t i k) := by
  induction k generalizing ok md i with
  | zero =>
      show md = max md 0
      omega
  | succ k ih =>
      rw [verify_loop_succ, ih _ _ _ (by positivity)]
      show max (if _ > md then _ else md) _ = max md (max _ _)
      have h1 : (if |r.getD i 0 - t.getD i 0| > md then |r.getD i 0 - t.getD i 0|
          else md) = max md |r.getD i 0 - t.getD i 0| := by
        rw [max_def]; split_ifs <;> omega
      rw [h1, max_assoc]

lemma verify_loop_ok_all (r t : List Int) (ok md : Int) (i k : Nat)
    (h : ∀ j, i ≤ j → j < i + k → r.getD j 0 = t.getD j 0) :
    (verify_equal_loop r t ok md i k).1 = ok := by
  induction k generalizing ok md i with
  | zero => rfl
  | succ k ih =>
      rw [verify_loop_succ]
      have hd : r.getD i 0 - t.getD i 0 = 0 := by
        have := h i (le_refl i) (by omega)
        omega
      rw [hd]
      simp only [abs_zero, ne_eq, not_true_eq_false, if_neg, ite_false]
      exact ih _ _ _ (fun j hj1 hj2 => h j (by omega) (by omega))

lemma verify_loop_ok_zero (r t : List Int) (ok md : Int) (i k : Nat)
    (h : ∃ j, i ≤ j ∧ j < i + k ∧ r.getD j 0 ≠ t.getD j 0) :
    (verify_equal_loop r t ok md i k).1 = 0 := by
  induction k generalizing ok md i with
  | zero =>
      obtain ⟨j, h1, h2, h3⟩ := h
      omega
  | succ k ih =>
      rw [verify_loop_succ]
      obtain ⟨j, h1, h2, h3⟩ := h
      by_cases hji : j = i
      · subst hji
        have hd : r.getD j 0 - t.getD j 0 ≠ 0 := by omega
        rw [if_pos (by simpa using hd)]
        by_cases hrest : ∃ m, j + 1 ≤ m ∧ m < j + 1 + k ∧ r.getD m 0 ≠ t.getD m 0
        · exact ih _ _ _ hrest
        · exact verify_loop_ok_all r t 0 _ (j + 1) k (by
            intro m hm1 hm2
            by_contra hne
            exact hrest ⟨m, hm1, hm2, hne⟩)
      · exact ih _ _ _ ⟨j, by omega, by omega, h3⟩

lemma maxDiffFrom_nonneg (r t : List Int) (i k : Nat) :
    0 ≤ maxDiffFrom r t i k := by
  induction k generalizing i with
  | zero => exact le_refl 0
  | succ k ih =>
      show 0 ≤ max |r.getD i 0 - t.getD i 0| (maxDiffFrom r t (i + 1) k)
      have := abs_nonneg (r.getD i 0 - t.getD i 0)
      have := ih (i + 1)
      omega

lemma maxDiffFrom_eq_zero_iff (r t : List Int) (i k : Nat) :
    maxDiffFrom r t i k = 0
      ↔ ∀ j, i ≤ j → j < i + k → r.getD j 0 = t.getD j 0 := by
  induction k generalizing i with
  | zero =>
      constructor
      · intro _ j h1 h2; omega
      · intro _; rfl
  | succ k ih =>
      show max |r.getD i 0 - t.getD i 0| (maxDiffFrom r t (i + 1) k) = 0 ↔ _
      have h0 := abs_nonneg (r.getD i 0 - t.getD i 0)
      have h1 := maxDiffFrom_nonneg r t (i + 1) k
      constructor
      · intro h j hj1 hj2
        by_cases hji : j = i
        · subst hji
          have : |r.getD j 0 - t.getD j 0| = 0 := by omega
          have := abs_eq_zero.mp this
          omega
        · exact (ih (i + 1)).mp (by omega) j (by omega) (by omega)
      · intro h
        have ha : |r.getD i 0 - t.getD i 0| = 0 := by
          have := h i (le_refl i) (by omega)
          rw [show r.getD i 0 - t.getD i 0 = 0 from by omega, abs_zero]
        have hb : maxDiffFrom r t (i + 1) k = 0 :=
          (ih (i + 1)).mpr (fun j hj1 hj2 => h j (by omega) (by omega))
        omega

lemma spec_clamp_eq_self (v : Int) (h : inQ15 v) : spec_clamp v = v := by
  obtain ⟨h1, h2⟩ := h
  unfold spec_clamp
  simp only [min_def, max_def]
  split_ifs <;> omega

lemma ref_getD_eq_clamp (a b y : List Int) (n : Nat) (alpha : Int)
    (hy : n ≤ y.length)
    (ha : ∀ x ∈ a, inQ15 x) (hb : ∀ x ∈ b, inQ15 x) (hal : inQ15 alpha)
    (i : Nat) (hi : i < n) :
    (q15_axpy_ref a b y n alpha).getD i 0
      = spec_clamp (a.getD i 0 + alpha * b.getD i 0) := by
  unfold q15_axpy_ref
  rw [ref_loop_getD, if_pos ⟨Nat.zero_le i, by omega, by omega⟩]
  exact sat_norm_eq_clamp _
    (acc_bound _ _ _ (getD_inQ15 a ha i) (getD_inQ15 b hb i) hal)

example : q15_axpy_ref [1, 2] [3, 4] [0, 0] 2 10 = [31, 42] := by decide

example : q15_axpy_rvv (fun m => min 2 m) [1, 2, 3] [3, 4, 5] [0, 0, 0] 3 10
    = some [31, 42, 53] := by decide

example : verify_equal [1, 5] [1, 2] 2 = (0, 3) := by decide

/-! ### Claim theorems -/

/-- C1: for every `n ≥ 0`, every pair of Q15 arrays `a`, `b`, every 16-bit
`alpha`, and every `vsetvl` oracle satisfying the RVV contract
(`1 ≤ vl ≤ remaining` whenever elements remain), the vectorized evaluator
`q15_axpy_rvv` completes and produces output bit-identical, element by
element, to the scalar reference `q15_axpy_ref` on the same inputs. -/
theorem q15_axpy_rvv_refines_ref (vset : Nat → Nat) (a b y : List Int)
    (n : Nat) (alpha : Int)
    (hv : ∀ m, 0 < m → 1 ≤ vset m ∧ vset m ≤ m)
    (ha : ∀ x ∈ a, inQ15 x) (hb : ∀ x ∈ b, inQ15 x) (hal : inQ15 alpha) :
    q15_axpy_rvv vset a b y n alpha = some (q15_axpy_ref a b y n alpha) := by
  unfold q15_axpy_rvv q15_axpy_ref
  rw [rvv_loop_eq_ref_loop vset a b alpha n y 0 n hv (getD_inQ15 a ha)
    (getD_inQ15 b hb) hal (by omega), Nat.sub_zero]

/-- Witness for C1 at a concrete input with chunk size 2. -/
theorem q15_axpy_rvv_refines_ref_witness :
    q15_axpy_rvv (fun m => min 2 m) [5, -7, 32767, -32768, 100]
        [3, 2, 32767, 1, -1] [0, 0, 0, 0, 0] 5 1000
      = some (q15_axpy_ref [5, -7, 32767, -32768, 100]
          [3, 2, 32767, 1, -1] [0, 0, 0, 0, 0] 5 1000) :=
  q15_axpy_rvv_refines_ref (fun m => min 2 m) _ _ _ 5 1000
    (fun m hm => ⟨le_min (by omega) hm, min_le_right 2 m⟩)
    (by decide) (by decide) (by decide)

/-- C2: `q15_axpy_ref` writes, for every `i < n`,
`y[i] = clamp(a[i] + alpha * b[i], -32768, 32767)` with the sum and product
exact in 32-bit signed arithmetic: values above 32767 saturate to 32767,
values below -32768 saturate to -32768, and in-range values pass through
unchanged (the 16-bit narrowing is lossless). -/
theorem q15_axpy_ref_correct (a b y : List Int) (n : Nat) (alpha : Int)
    (hy : n ≤ y.length)
    (ha : ∀ x ∈ a, inQ15 x) (hb : ∀ x ∈ b, inQ15 x) (hal : inQ15 alpha)
    (i : Nat) (hi : i < n) :
    (q15_axpy_ref a b y n alpha).getD i 0
      = spec_clamp (a.getD i 0 + alpha * b.getD i 0) :=
  ref_getD_eq_clamp a b y n alpha hy ha hb hal i hi

/-- Witness for C2: index 0 of a length-1 computation saturates upward. -/
theorem q15_axpy_ref_correct_witness :
    (q15_axpy_ref [30000] [30000] [0] 1 2).getD 0 0
      = spec_clamp (30000 + 2 * 30000) :=
  q15_axpy_ref_correct [30000] [30000] [0] 1 2 (by decide) (by decide)
    (by decide) (by decide) 0 (by decide)

/-- C3: the compile-time fallback path of `q15_axpy_rvv` is a pure
pass-through to `q15_axpy_ref`: same inputs, exactly the same output, with
no partial vectorization. -/
theorem q15_axpy_rvv_fallback_is_ref (a b y : List Int) (n : Nat)
    (alpha : Int) :
    q15_axpy_rvv_fallback a b y n alpha = q15_axpy_ref a b y n alpha :=
  rfl

/-- C4: for 16-bit `a[i]`, `b[i]`, `alpha`, the exact value
`a[i] + alpha * b[i]` has magnitude at most `2^30 + 2^15 = 1073774592`,
hence lies strictly inside the 32-bit signed range, so the 32-bit
accumulator never overflows: the wrapping (overflow) branch of `norm32`
is unreachable and `norm32` returns the exact value. -/
theorem acc32_no_overflow (ai bi alpha : Int)
    (ha : inQ15 ai) (hb : inQ15 bi) (hal : inQ15 alpha) :
    |ai + alpha * bi| ≤ 1073774592 ∧
    -2147483648 < ai + alpha * bi ∧ ai + alpha * bi < 2147483647 ∧
    norm32 (ai + alpha * bi) = ai + alpha * bi := by
  have h := acc_bound ai bi alpha ha hb hal
  obtain ⟨h1, h2⟩ := abs_le.mp h
  exact ⟨h, by omega, by omega, norm32_acc ai bi alpha ha hb hal⟩

/-- Witness for C4 at the extreme input `(-32768, -32768, -32768)`. -/
theorem acc32_no_overflow_witness :
    |(-32768 : Int) + -32768 * -32768| ≤ 1073774592 ∧
    -2147483648 < (-32768 : Int) + -32768 * -32768 ∧
    (-32768 : Int) + -32768 * -32768 < 2147483647 ∧
    norm32 ((-32768 : Int) + -32768 * -32768)
      = (-32768 : Int) + -32768 * -32768 :=
  acc32_no_overflow (-32768) (-32768) (-32768) (by decide) (by decide)
    (by decide)

/-- C5: at any index `i < n` with `a[i] = 32767`, `b[i] = 32767` and
`alpha = 32767`, the exact accumulator exceeds 32767 and both evaluators
produce `y[i] = 32767` (upper saturation boundary). -/
theorem upper_saturation (vset : Nat → Nat) (a b y : List Int) (n : Nat)
    (alpha : Int) (i : Nat)
    (hv : ∀ m, 0 < m → 1 ≤ vset m ∧ vset m ≤ m)
    (ha : ∀ x ∈ a, inQ15 x) (hb : ∀ x ∈ b, inQ15 x) (hal : inQ15 alpha)
    (hy : n ≤ y.length) (hi : i < n)
    (hai : a.getD i 0 = 32767) (hbi : b.getD i 0 = 32767)
    (halv : alpha = 32767) :
    32767 < a.getD i 0 + alpha * b.getD i 0 ∧
    (q15_axpy_ref a b y n alpha).getD i 0 = 32767 ∧
    ∃ out, q15_axpy_rvv vset a b y n alpha = some out ∧
      out.getD i 0 = 32767 := by
  have href : (q15_axpy_ref a b y n alpha).getD i 0 = 32767 := by
    rw [ref_getD_eq_clamp a b y n alpha hy ha hb hal i hi, hai, hbi, halv]
    decide
  refine ⟨by rw [hai, hbi, halv]; decide, href, q15_axpy_ref a b y n alpha,
    ?_, href⟩
  unfold q15_axpy_rvv q15_axpy_ref
  rw [rvv_loop_eq_ref_loop vset a b alpha n y 0 n hv (getD_inQ15 a ha)
    (getD_inQ15 b hb) hal (by omega), Nat.sub_zero]

/-- Witness for C5 at singleton arrays. -/
theorem upper_saturation_witness :
    32767 < ([32767] : List Int).getD 0 0
        + 32767 * ([32767] : List Int).getD 0 0 ∧
    (q15_axpy_ref [32767] [32767] [0] 1 32767).getD 0 0 = 32767 ∧
    ∃ out, q15_axpy_rvv (fun m => min 2 m) [32767] [32767] [0] 1 32767
        = some out ∧ out.getD 0 0 = 32767 :=
  upper_saturation (fun m => min 2 m) [32767] [32767] [0] 1 32767 0
    (fun m hm => ⟨le_min (by omega) hm, min_le_right 2 m⟩)
    (by decide) (by decide) (by decide) (by decide) (by decide)
    (by decide) (by decide) (by decide)

/-- C6: zero-gain identity: with `alpha = 0`, at every index `i < n` both
evaluators return `a[i]` unchanged (the product vanishes and `a[i]` is
always in the clamp range). -/
theorem zero_gain_identity (vset : Nat → Nat) (a b y : List Int) (n : Nat)
    (i : Nat)
    (hv : ∀ m, 0 < m → 1 ≤ vset m ∧ vset m ≤ m)
    (ha : ∀ x ∈ a, inQ15 x) (hb : ∀ x ∈ b, inQ15 x)
    (hy : n ≤ y.length) (hi : i < n) :
    (q15_axpy_ref a b y n 0).getD i 0 = a.getD i 0 ∧
    ∃ out, q15_axpy_rvv vset a b y n 0 = some out ∧
      out.getD i 0 = a.getD i 0 := by
  have href : (q15_axpy_ref a b y n 0).getD i 0 = a.getD i 0 := by
    rw [ref_getD_eq_clamp a b y n 0 hy ha hb (by decide) i hi, zero_mul,
      add_zero]
    exact spec_clamp_eq_self _ (getD_inQ15 a ha i)
  refine ⟨href, q15_axpy_ref a b y n 0, ?_, href⟩
  unfold q15_axpy_rvv q15_axpy_ref
  rw [rvv_loop_eq_ref_loop vset a b 0 n y 0 n hv (getD_inQ15 a ha)
    (getD_inQ15 b hb) (by decide) (by omega), Nat.sub_zero]

/-- Witness for C6 at a concrete input. -/
theorem zero_gain_identity_witness :
    (q15_axpy_ref [-123, 456] [7, -8] [0, 0] 2 0).getD 1 0
        = ([-123, 456] : List Int).getD 1 0 ∧
    ∃ out, q15_axpy_rvv (fun m => min 2 m) [-123, 456] [7, -8] [0, 0] 2 0
        = some out ∧ out.getD 1 0 = ([-123, 456] : List Int).getD 1 0 :=
  zero_gain_identity (fun m => min 2 m) [-123, 456] [7, -8] [0, 0] 2 1
    (fun m hm => ⟨le_min (by omega) hm, min_le_right 2 m⟩)
    (by decide) (by decide) (by decide) (by decide)

/-- C7: when every chunk-size query satisfies `1 ≤ vl ≤ n - i` whenever
`n - i > 0`, the chunked loop of `q15_axpy_rvv` makes progress and
terminates within its fuel of `n` iterations, the call fully completes
(returns `some`), and all `n` output elements have been written with the
kernel value. -/
theorem rvv_terminates_and_completes (vset : Nat → Nat) (a b y : List Int)
    (n : Nat) (alpha : Int)
    (hv : ∀ m, 0 < m → 1 ≤ vset m ∧ vset m ≤ m)
    (ha : ∀ x ∈ a, inQ15 x) (hb : ∀ x ∈ b, inQ15 x) (hal : inQ15 alpha)
    (hy : n ≤ y.length) :
    ∃ out, q15_axpy_rvv vset a b y n alpha = some out ∧
      out.length = y.length ∧
      ∀ j, j < n → out.getD j 0 = refElem a b alpha j := by
  refine ⟨q15_axpy_ref_loop a b alpha y 0 n, ?_, ?_, ?_⟩
  · unfold q15_axpy_rvv
    rw [rvv_loop_eq_ref_loop vset a b alpha n y 0 n hv (getD_inQ15 a ha)
      (getD_inQ15 b hb) hal (by omega), Nat.sub_zero]
  · exact ref_loop_length a b alpha y 0 n
  · intro j hj
    rw [ref_loop_getD, if_pos ⟨Nat.zero_le j, by omega, by omega⟩]

/-- Witness for C7 with chunk size capped at 3. -/
theorem rvv_terminates_and_completes_witness :
    ∃ out, q15_axpy_rvv (fun m => min 3 m) [1, 2, 3, 4] [5, 6, 7, 8]
        [9, 9, 9, 9] 4 (-2) = some out ∧
      out.length = ([9, 9, 9, 9] : List Int).length ∧
      ∀ j, j < 4 →
        out.getD j 0 = refElem [1, 2, 3, 4] [5, 6, 7, 8] (-2) j :=
  rvv_terminates_and_completes (fun m => min 3 m) [1, 2, 3, 4] [5, 6, 7, 8]
    [9, 9, 9, 9] 4 (-2)
    (fun m hm => ⟨le_min (by omega) hm, min_le_right 3 m⟩)
    (by decide) (by decide) (by decide) (by decide)

/-- C8: frame property.  Both evaluators are functions of the input lists
`a` and `b` alone (which the functional embedding leaves untouched by
construction) and of the prior output list `y`; the call preserves the
length of `y`, leaves every index `j ≥ n` of `y` unchanged, and with
`n = 0` returns `y` itself unchanged. -/
theorem frame_property (vset : Nat → Nat) (a b y : List Int) (n : Nat)
    (alpha : Int)
    (hv : ∀ m, 0 < m → 1 ≤ vset m ∧ vset m ≤ m)
    (ha : ∀ x ∈ a, inQ15 x) (hb : ∀ x ∈ b, inQ15 x) (hal : inQ15 alpha) :
    (q15_axpy_ref a b y n alpha).length = y.length ∧
    (∀ j, n ≤ j → (q15_axpy_ref a b y n alpha).getD j 0 = y.getD j 0) ∧
    (n = 0 → q15_axpy_ref a b y n alpha = y) ∧
    ∃ out, q15_axpy_rvv vset a b y n alpha = some out ∧
      out.length = y.length ∧
      (∀ j, n ≤ j → out.getD j 0 = y.getD j 0) ∧
      (n = 0 → out = y) := by
  have hfr : ∀ j, n ≤ j → (q15_axpy_ref a b y n alpha).getD j 0
      = y.getD j 0 := by
    intro j hj
    unfold q15_axpy_ref
    rw [ref_loop_getD, if_neg (by rintro ⟨h1, h2, h3⟩; omega)]
  have hn0 : n = 0 → q15_axpy_ref a b y n alpha = y := by
    intro h; subst h; rfl
  refine ⟨ref_loop_length a b alpha y 0 n, hfr, hn0,
    q15_axpy_ref a b y n alpha, ?_,
    ref_loop_length a b alpha y 0 n, hfr, hn0⟩
  unfold q15_axpy_rvv q15_axpy_ref
  rw [rvv_loop_eq_ref_loop vset a b alpha n y 0 n hv (getD_inQ15 a ha)
    (getD_inQ15 b hb) hal (by omega), Nat.sub_zero]

/-- Witness for C8 on a 3-element `y` with `n = 2`. -/
theorem frame_property_witness :
    (q15_axpy_ref [1, 2] [3, 4] [9, 9, 77] 2 5).length
        = ([9, 9, 77] : List Int).length ∧
    (∀ j, 2 ≤ j → (q15_axpy_ref [1, 2] [3, 4] [9, 9, 77] 2 5).getD j 0
        = ([9, 9, 77] : List Int).getD j 0) ∧
    (2 = 0 → q15_axpy_ref [1, 2] [3, 4] [9, 9, 77] 2 5 = [9, 9, 77]) ∧
    ∃ out, q15_axpy_rvv (fun m => min 2 m) [1, 2] [3, 4] [9, 9, 77] 2 5
        = some out ∧
      out.length = ([9, 9, 77] : List Int).length ∧
      (∀ j, 2 ≤ j → out.getD j 0 = ([9, 9, 77] : List Int).getD j 0) ∧
      (2 = 0 → out = [9, 9, 77]) :=
  frame_property (fun m => min 2 m) [1, 2] [3, 4] [9, 9, 77] 2 5
    (fun m hm => ⟨le_min (by omega) hm, min_le_right 2 m⟩)
    (by decide) (by decide) (by decide)

/-- C9: `verify_equal` returns as second component the maximum over
`i < n` of `|ref[i] - test[i]|` (0 when `n = 0`), and returns `ok = 1`
exactly when the two arrays agree on all `n` compared elements. -/
theorem verify_equal_correct (r t : List Int) (n : Nat) :
    (verify_equal r t n).2 = maxDiffFrom r t 0 n ∧
    ((verify_equal r t n).1 = 1 ↔ ∀ i, i < n → r.getD i 0 = t.getD i 0) := by
  constructor
  · unfold verify_equal
    rw [verify_loop_md r t 1 0 0 n (le_refl 0),
      max_eq_right (maxDiffFrom_nonneg r t 0 n)]
  · constructor
    · intro h1 i hi
      by_contra hne
      have h0 := verify_loop_ok_zero r t 1 0 0 n ⟨i, by omega, by omega, hne⟩
      unfold verify_equal at h1
      omega
    · intro h
      exact verify_loop_ok_all r t 1 0 0 n (fun j h1 h2 => h j (by omega))

/-- C10: the two results of `verify_equal` are mutually consistent:
`ok = 1` iff `max_abs_diff = 0`; in particular on `n = 0` it returns
`(1, 0)` (empty arrays compare equal). -/
theorem verify_equal_consistent (r t : List Int) (n : Nat) :
    ((verify_equal r t n).1 = 1 ↔ (verify_equal r t n).2 = 0) ∧
    verify_equal r t 0 = (1, 0) := by
  constructor
  · rw [show (verify_equal r t n).2 = maxDiffFrom r t 0 n from by
      unfold verify_equal
      rw [verify_loop_md r t 1 0 0 n (le_refl 0),
        max_eq_right (maxDiffFrom_nonneg r t 0 n)]]
    rw [maxDiffFrom_eq_zero_iff]
    constructor
    · intro h1 j hj1 hj2
      by_contra hne
      have h0 := verify_loop_ok_zero r t 1 0 0 n ⟨j, hj1, hj2, hne⟩
      unfold verify_equal at h1
      omega
    · intro h
      exact verify_loop_ok_all r t 1 0 0 n h
  · rfl

end Q15
